import Mathlib

/-!
Verification of `media_theme_processor.py` (class `MediaBackdropProcessor`).

The development shallowly embeds the decision logic of the program:

* `shlexSplit` — the POSIX shell-word tokenizer used for the configured
  extra ffmpeg parameter strings (`shlex.split`), including its failure on
  unbalanced quotes;
* `Config` — the constructor parameters of `MediaBackdropProcessor`,
  with `Config.width`/`Config.height` mirroring the resolution presets;
* `VFilter`/`renderChain` — the `-vf` filter chains built in
  `_extract_clip`, rendered to the exact strings the code builds;
* `clipStart`/`extractClip` — the clip planner and ffmpeg invocation of
  `_extract_clip`, with the probe duration, probed codec, the random draw
  and the encode outcome supplied as inputs, and the externally visible
  actions (probes, mkdir, running the encoder, touching the placeholder)
  recorded as an `Effect` trace;
* `findVideos`/`maxBySize`/`selectSeason` — the candidate selectors
  `_find_videos`, the movie `max(..., key=size)` choice and the season
  choice of `_find_first_ep`;
* `codecName` — the codec probe post-processing of `_codec_name`;
* `process` — the per-folder state guard and control flow of `_process`.

Durations and the random draw are modelled as rationals (the Python floats
`0.1`, `0.5` are exact decimals, so the arithmetic of the safe window is
exact); machine ints are modelled as `Int`.
-/

namespace MediaBackdrop

/-! ### Character-list string utilities

The Python code works on `str`; we model the relevant `str` operations
over `List Char` so that every definition evaluates inside the kernel.
-/

/-- Lower-case a string character by character (`str.lower` on ASCII names). -/
def toLowerStr (s : String) : String :=
  String.mk (s.toList.map Char.toLower)

/-- Does `s` start with the pattern `p`? (helper for substring search). -/
def leadsWith : List Char → List Char → Bool
  | [], _ => true
  | _ :: _, [] => false
  | p :: ps, c :: cs => (p == c) && leadsWith ps cs

/-- Occurs-anywhere substring search over character lists (helper). -/
def containsSeq (pat : List Char) : List Char → Bool
  | [] => leadsWith pat []
  | c :: cs => leadsWith pat (c :: cs) || containsSeq pat cs

/-- Python's `pat in s` substring test. -/
def strContains (s pat : String) : Bool :=
  containsSeq pat.toList s.toList

/-- Python's `str.split(sep)` for a one-character separator. -/
def splitOnChar (sep : Char) : List Char → List (List Char)
  | [] => [[]]
  | c :: rest =>
      let r := splitOnChar sep rest
      if c == sep then [] :: r
      else
        match r with
        | [] => [[c]]
        | t :: ts => (c :: t) :: ts

/-- Whitespace test used by both the tokenizer and `str.strip`. -/
def isWs (ch : Char) : Bool :=
  ch == ' ' || ch == '\t' || ch == '\n' || ch == '\r'

/-- Python's `str.strip()`: drop whitespace from both ends. -/
def trimChars (cs : List Char) : List Char :=
  ((cs.dropWhile isWs).reverse.dropWhile isWs).reverse

/-- Python `pathlib.Path.suffix`: the extension (with dot) of the last
path component; empty for dotless names and for a leading-dot-only name. -/
def pathSuffix (p : String) : String :=
  let name := (splitOnChar '/' p.toList).getLastD []
  let parts := splitOnChar '.' name
  match parts with
  | [] => ""
  | [_] => ""
  | [[], _] => ""
  | _ =>
      match parts.getLastD [] with
      | [] => ""
      | t => String.mk ('.' :: t)

/-- Total lexicographic comparison of character lists (by code point),
modelling the path order used by Python's `sorted` over paths. -/
def strLeB : List Char → List Char → Bool
  | [], _ => true
  | _ :: _, [] => false
  | a :: as, b :: bs =>
      if a.toNat < b.toNat then true
      else if b.toNat < a.toNat then false
      else strLeB as bs

/-- Propositional form of `strLeB` on strings. -/
def strLe (a b : String) : Prop := strLeB a.toList b.toList = true

instance : DecidableRel strLe := fun _ _ => instDecidableEqBool _ _

/-! ### `shlex.split` (POSIX mode)

`_extract_clip` tokenizes `ffmpeg_pre` and `ffmpeg_extra` with
`shlex.split`, which raises `ValueError("No closing quotation")` on an
unbalanced quote. We model the lexer's three modes and the error cases.
-/

/-- Lexer mode of the shell-word tokenizer: outside quotes, inside
single quotes, inside double quotes. -/
inductive LexMode
  | normal
  | single
  | double
deriving DecidableEq, Repr

/-- Close the current token, if one is open, onto the accumulator. -/
def flushTok (cur : Option (List Char)) (acc : List String) : List String :=
  match cur with
  | none => acc
  | some t => acc ++ [String.mk t]

/-- Append a character to the current token (opening one if needed). -/
def pushCh (cur : Option (List Char)) (ch : Char) : Option (List Char) :=
  some (cur.getD [] ++ [ch])

/-- Worker of the shell-word tokenizer. -/
def shlexGo : LexMode → Option (List Char) → List String → List Char → Except String (List String)
  | .normal, cur, acc, [] => Except.ok (flushTok cur acc)
  | .single, _, _, [] => Except.error "No closing quotation"
  | .double, _, _, [] => Except.error "No closing quotation"
  | .normal, cur, acc, ch :: rest =>
      if isWs ch then shlexGo .normal none (flushTok cur acc) rest
      else if ch == '\x27' then shlexGo .single (some (cur.getD [])) acc rest
      else if ch == '"' then shlexGo .double (some (cur.getD [])) acc rest
      else if ch == '\\' then
        match rest with
        | [] => Except.error "No escaped character"
        | c2 :: rest2 => shlexGo .normal (pushCh cur c2) acc rest2
      else shlexGo .normal (pushCh cur ch) acc rest
  | .single, cur, acc, ch :: rest =>
      if ch == '\x27' then shlexGo .normal cur acc rest
      else shlexGo .single (pushCh cur ch) acc rest
  | .double, cur, acc, ch :: rest =>
      if ch == '"' then shlexGo .normal cur acc rest
      else if ch == '\\' then
        match rest with
        | [] => Except.error "No closing quotation"
        | c2 :: rest2 =>
            if c2 == '"' || c2 == '\\' then shlexGo .double (pushCh cur c2) acc rest2
            else shlexGo .double (pushCh (pushCh cur '\\') c2) acc rest2
      else shlexGo .double (pushCh cur ch) acc rest

/-- `shlex.split` in POSIX mode: whitespace-separated words with quoting;
an unbalanced quote is a `ValueError` (`Except.error`). -/
def shlexSplit (s : String) : Except String (List String) :=
  shlexGo .normal none [] s.toList

/-! ### Configuration -/

/-- Constructor parameters of `MediaBackdropProcessor` (lines 29–59). -/
structure Config where
  timeout : Int
  clip_len : Int
  resolution : Int
  crf : Int
  preset : String
  delay : ℚ
  force : Bool
  include_audio : Bool
  ffmpeg_extra : String
  ffmpeg_pre : String
deriving DecidableEq, Repr

/-- `self.width`: `(1280, 720) if resolution == 720 else (1920, 1080)` (line 59). -/
def Config.width (c : Config) : Int :=
  if c.resolution = 720 then 1280 else 1920

/-- `self.height` of the same resolution preset choice (line 59). -/
def Config.height (c : Config) : Int :=
  if c.resolution = 720 then 720 else 1080

/-! ### Video filter chains -/

/-- The individual `-vf` filters appearing in `_extract_clip`
(lines 112–122): pixel-format normalization, aspect-preserving fit
(`force_original_aspect_ratio=decrease`), centered pad, and the CUDA
hardware scaler. -/
inductive VFilter
  | formatYuv420p
  | scaleFit (w h : Int)
  | padCenter (w h : Int)
  | scaleCuda (w h : Int)
deriving DecidableEq, Repr

/-- Render one filter to the exact string the Python code builds. -/
def renderFilter : VFilter → String
  | .formatYuv420p => "format=yuv420p"
  | .scaleFit w h => s!"scale={w}:{h}:force_original_aspect_ratio=decrease"
  | .padCenter w h => s!"pad={w}:{h}:(ow-iw)/2:(oh-ih)/2"
  | .scaleCuda w h => s!"scale_cuda={w}:{h}:interp_algo=lanczos:format=nv12"

/-- Render a chain, comma-separated, as in the code's f-strings. -/
def renderChain (fs : List VFilter) : String :=
  String.intercalate "," (fs.map renderFilter)

/-- The software `vf_chain` of `_extract_clip` (lines 117–122). -/
def swChain (w h : Int) : List VFilter :=
  [.formatYuv420p, .scaleFit w h, .padCenter w h]

/-- The hardware `vf_chain` of `_extract_clip` (lines 112–116). -/
def hwChain (w h : Int) : List VFilter :=
  [.scaleCuda w h]

/-- The two encode pipelines of the clip planner. -/
inductive Pipeline
  | hw
  | sw
deriving DecidableEq, Repr

/-- Which filter chain each pipeline uses. -/
def chainOfPipeline : Pipeline → Int → Int → List VFilter
  | .hw, w, h => hwChain w h
  | .sw, w, h => swChain w h

/-- Modelled from the spec: the geometry of the external Media Toolkit's
filters (the encoder binding is outside `src/`; §4.3 "Resolution
handling" describes the intended scale/pad semantics). `formatYuv420p`
keeps dimensions; `scaleFit w h` resizes into the `w×h` box adjusting the
output box to the input aspect ratio (`force_original_aspect_ratio=decrease`);
`padCenter w h` pads up to exactly `w×h`; `scaleCuda w h` resizes to
exactly `w×h` regardless of the input aspect ratio. Dimensions are
idealized as rationals. -/
def filterDims : VFilter → ℚ × ℚ → ℚ × ℚ
  | .formatYuv420p, d => d
  | .scaleFit w h, (iw, ih) =>
      if ih * w ≤ iw * h then ((w : ℚ), (w : ℚ) * ih / iw)
      else (iw * (h : ℚ) / ih, (h : ℚ))
  | .padCenter w h, (sw, sh) => (max (w : ℚ) sw, max (h : ℚ) sh)
  | .scaleCuda w h, _ => ((w : ℚ), (h : ℚ))

/-- Output dimensions of a whole filter chain. -/
def chainDims (fs : List VFilter) (d : ℚ × ℚ) : ℚ × ℚ :=
  fs.foldl (fun d f => filterDims f d) d

/-- Is this filter the padding step? -/
def isPadF : VFilter → Bool
  | .padCenter _ _ => true
  | _ => false

/-- Dimensions of the scaled frame before any padding step. -/
def scaledFrame (fs : List VFilter) (d : ℚ × ℚ) : ℚ × ℚ :=
  chainDims (fs.filter (fun f => !isPadF f)) d

/-- The property C5 asserts of a chain with target box `w×h`: the scaling
step fits the source into the target box preserving the aspect ratio and
not exceeding the box, and the chain as a whole produces exactly the
target dimensions (the centered pad). -/
def fitsPadsClaim (fs : List VFilter) (w h : ℚ) : Prop :=
  ∀ iw ih : ℚ, 0 < iw → 0 < ih →
    (scaledFrame fs (iw, ih)).1 * ih = (scaledFrame fs (iw, ih)).2 * iw ∧
    (scaledFrame fs (iw, ih)).1 ≤ w ∧
    (scaledFrame fs (iw, ih)).2 ≤ h ∧
    chainDims fs (iw, ih) = (w, h)

/-! ### Clip planner (`_extract_clip`) -/

/-- `random.uniform a b`, with the unit draw `u ∈ [0,1]` made explicit:
`uniform a b u = a + (b - a) * u`. -/
def uniform (a b u : ℚ) : ℚ := a + (b - a) * u

/-- The start offset drawn at line 106:
`random.uniform(start_safe, end_safe - clip_len)` with
`start_safe = total * 0.1`, `end_safe = total * 0.5`. -/
def clipStart (total L u : ℚ) : ℚ :=
  uniform (total * 0.1) (total * 0.5 - L) u

/-- Externally visible actions of processing one folder, in order:
the ffprobe duration query, `dst.parent.mkdir`, the ffprobe codec query,
running the ffmpeg encode with the assembled argument list, touching the
`.failed` placeholder, and the force-mode unlinks. -/
inductive Effect
  | probeDuration
  | mkdirDst
  | probeCodec
  | runEncode (cmd : List String)
  | touchPlaceholder
  | unlinkArtifact
  | unlinkPlaceholder
deriving DecidableEq, Repr

/-- Outcome of the external ffmpeg run (`subprocess.run`): success,
`TimeoutExpired`, `CalledProcessError`, or any other exception. -/
inductive EncodeResult
  | success
  | timedOut
  | toolError
  | unexpectedError
deriving DecidableEq, Repr

/-- Result of `_extract_clip`: the effect trace, the returned boolean,
whether an exception escaped (the un-guarded `shlex.split(ffmpeg_pre)`),
the pipeline chosen (once the source was accepted), and the assembled
ffmpeg command (once one was run). -/
structure ExtractResult where
  effects : List Effect
  returned : Bool
  raised : Bool
  pipeline : Option Pipeline
  cmd : Option (List String)
deriving DecidableEq, Repr

/-- Line 110: `use_hwaccel = self.ffmpeg_pre and codec != "av1"`
(a non-empty pre-parameter string is truthy). -/
def useHwaccel (pre codec : String) : Bool :=
  !(pre == "") && !(codec == "av1")

/-- The ffmpeg arguments after the input-independent head (lines 128–148):
seek, input, duration, codec, filter chain, preset, CRF, timestamp fix,
the audio flag choice, the tokenized `ffmpeg_extra` (omitted with a
warning when tokenization fails), and the destination. -/
def buildTail (c : Config) (src dst vf : String) (start : ℚ) : List String :=
  ["-ss", toString start, "-i", src, "-t", toString c.clip_len, "-c:v", "libx264",
   "-vf", vf, "-preset", c.preset, "-crf", toString c.crf,
   "-avoid_negative_ts", "make_zero"]
  ++ (if c.include_audio then ["-c:a", "aac"] else ["-an"])
  ++ (if c.ffmpeg_extra == "" then []
      else
        match shlexSplit c.ffmpeg_extra with
        | Except.ok toks => toks
        | Except.error _ => [])
  ++ [dst]

/-- Run the assembled command (lines 150–161): on success return `True`;
on timeout, tool error or unexpected failure touch the placeholder and
return `False`. -/
def encodeEffects (cmd : List String) (enc : EncodeResult) (pl : Pipeline) : ExtractResult :=
  match enc with
  | .success =>
      ⟨[.probeDuration, .mkdirDst, .probeCodec, .runEncode cmd], true, false, some pl, some cmd⟩
  | _ =>
      ⟨[.probeDuration, .mkdirDst, .probeCodec, .runEncode cmd, .touchPlaceholder],
        false, false, some pl, some cmd⟩

/-- `_extract_clip` (lines 97–161). Inputs beyond the configuration: the
probed duration `total`, the probed codec, the unit random draw `u`, and
the encode outcome `enc`. Rejections return `False` with no further
effect; a `ValueError` from the un-guarded `shlex.split(ffmpeg_pre)`
escapes (`raised`). -/
def extractClip (c : Config) (src dst : String) (total : ℚ) (codec : String)
    (u : ℚ) (enc : EncodeResult) : ExtractResult :=
  if total < 60 then ⟨[.probeDuration], false, false, none, none⟩
  else if total * 0.5 - total * 0.1 < (c.clip_len : ℚ) then
    ⟨[.probeDuration], false, false, none, none⟩
  else
    let start := clipStart total (c.clip_len : ℚ) u
    if useHwaccel c.ffmpeg_pre codec then
      match shlexSplit c.ffmpeg_pre with
      | Except.error _ =>
          ⟨[.probeDuration, .mkdirDst, .probeCodec], false, true, some .hw, none⟩
      | Except.ok preToks =>
          encodeEffects
            (["ffmpeg", "-y"] ++ preToks
              ++ buildTail c src dst (renderChain (hwChain c.width c.height)) start)
            enc .hw
    else
      encodeEffects
        (["ffmpeg", "-y"]
          ++ buildTail c src dst (renderChain (swChain c.width c.height)) start)
        enc .sw

/-! ### Candidate selectors -/

/-- `VIDEO_EXTS` (line 25). -/
def VIDEO_EXTS : List String :=
  [".mkv", ".mp4", ".avi", ".mov", ".wmv", ".flv", ".webm", ".m4v"]

/-- A file seen by the selector: its path and its size
(`p.stat().st_size`). -/
structure FileEntry where
  path : String
  size : Nat
deriving DecidableEq, Repr

/-- Path order used for `sorted(...)`. -/
def pathLe (a b : FileEntry) : Prop := strLe a.path b.path

instance : DecidableRel pathLe := fun _ _ => instDecidableEqBool _ _

/-- `_find_videos` (lines 164–166): the recursively enumerated entries
(given as the input list, in enumeration order) whose lower-cased suffix
is a video extension, sorted by path. -/
def findVideos (files : List FileEntry) : List FileEntry :=
  List.insertionSort pathLe
    (files.filter (fun f => VIDEO_EXTS.contains (toLowerStr (pathSuffix f.path))))

/-- One step of Python's `max(..., key=...)`: replace the current best
only on a strictly larger key, so the first maximum wins. -/
def stepMax (best x : FileEntry) : FileEntry :=
  if best.size < x.size then x else best

/-- Python's `max(l, key=lambda p: p.stat().st_size)` over a list,
`none` on the empty list. -/
def maxBySize : List FileEntry → Option FileEntry
  | [] => none
  | f :: fs => some (fs.foldl stepMax f)

/-- The movie branch of `_process` (lines 193–195): the largest video
file, or `None` when the folder has no video files. -/
def selectMovieSource (files : List FileEntry) : Option FileEntry :=
  maxBySize (findVideos files)

/-- The season-like subdirectories of `_find_first_ep` (line 169):
subdirectory names (in directory enumeration order) containing
"season" case-insensitively. -/
def seasonDirs (dirs : List String) : List String :=
  dirs.filter (fun d => strContains (toLowerStr d) "season")

/-- Line 170's season-1 test: `"01" in d.name or "season 1" in d.name.lower()`. -/
def seasonOneMatch (d : String) : Bool :=
  strContains d "01" || strContains (toLowerStr d) "season 1"

/-- The season-folder choice of `_find_first_ep` (lines 169–171): the
first season-like directory matching the season-1 test, else the first
season-like directory in enumeration order, else none. -/
def selectSeason (dirs : List String) : Option String :=
  match (seasonDirs dirs).find? seasonOneMatch with
  | some d => some d
  | none => (seasonDirs dirs).head?

/-- The fallback behavior claim C6 asserts: with season-like directories
present and none matching the season-1 test, the selector picks the
first season-like directory in sorted order. -/
def sortedSeasonClaim (dirs : List String) : Prop :=
  seasonDirs dirs ≠ [] →
  (seasonDirs dirs).find? seasonOneMatch = none →
  selectSeason dirs = (List.insertionSort strLe (seasonDirs dirs)).head?

/-- `_codec_name` post-processing (lines 83–94): on any probe failure
return `""`; on success `out.strip().split("=")[-1].lower()`. -/
def codecName (probeOut : Except Unit String) : String :=
  match probeOut with
  | Except.error _ => ""
  | Except.ok out =>
      toLowerStr (String.mk ((splitOnChar '=' (trimChars out.toList)).getLastD []))

/-! ### Per-folder processing (`_process`) -/

/-- The per-folder environment `_process` observes: the folder path, the
two artifact-state checks, the candidate source the selector would yield
(`none` when the folder has no suitable video), and the source's probed
duration and codec. -/
structure FolderEnv where
  folder : String
  artifactExists : Bool
  placeholderExists : Bool
  src : Option String
  duration : ℚ
  codec : String
deriving DecidableEq, Repr

/-- Result of `_process`: the effect trace and whether an exception
escaped to the caller's per-folder handler. -/
structure ProcessResult where
  effects : List Effect
  raised : Bool
deriving DecidableEq, Repr

/-- `_process` (lines 182–200): skip when the backdrop or its placeholder
exists and force is unset; under force, unlink both; then select a
source (placeholder and stop when there is none) and run the clip
extraction. -/
def process (c : Config) (env : FolderEnv) (u : ℚ) (enc : EncodeResult) : ProcessResult :=
  if !c.force && (env.artifactExists || env.placeholderExists) then ⟨[], false⟩
  else
    let forceEff := if c.force then [Effect.unlinkArtifact, Effect.unlinkPlaceholder] else []
    match env.src with
    | none => ⟨forceEff ++ [Effect.touchPlaceholder], false⟩
    | some s =>
        let r := extractClip c s (env.folder ++ "/backdrops/backdrop.mp4")
          env.duration env.codec u enc
        ⟨forceEff ++ r.effects, r.raised⟩

/-! ### Shared concrete instances for witnesses -/

/-- Default configuration: the CLI defaults of `parse_cli`
(length 5, resolution 720, crf 28, preset veryfast, audio on, no extra
parameter strings, no force). -/
def cfg0 : Config :=
  ⟨300, 5, 720, 28, "veryfast", 0, false, true, "", ""⟩

/-! ### Helper lemmas -/

/-- Totality of the lexicographic path comparison. -/
theorem strLeB_total : ∀ as bs : List Char, strLeB as bs = true ∨ strLeB bs as = true
  | [], _ => Or.inl rfl
  | _ :: _, [] => Or.inr rfl
  | a :: as, b :: bs => by
      by_cases h1 : a.toNat < b.toNat
      · exact Or.inl (by simp [strLeB, h1])
      · by_cases h2 : b.toNat < a.toNat
        · exact Or.inr (by simp [strLeB, h2])
        · rcases strLeB_total as bs with h | h
          · exact Or.inl (by simp [strLeB, h1, h2, h])
          · exact Or.inr (by simp [strLeB, h2, h1, h])

/-- Transitivity of the lexicographic path comparison. -/
theorem strLeB_trans : ∀ as bs cs : List Char,
    strLeB as bs = true → strLeB bs cs = true → strLeB as cs = true
  | [], _, _ => fun _ _ => rfl
  | _ :: _, [], _ => fun hab _ => by simp [strLeB] at hab
  | _ :: _, _ :: _, [] => fun _ hbc => by simp [strLeB] at hbc
  | a :: as, b :: bs, c :: cs => fun hab hbc => by
      simp only [strLeB] at hab hbc ⊢
      split_ifs at hab hbc ⊢ with h1 h2 h3 h4 h5 h6 <;>
        first
          | rfl
          | omega
          | (exact strLeB_trans as bs cs hab hbc)

instance : IsTotal FileEntry pathLe :=
  ⟨fun a b => strLeB_total a.path.toList b.path.toList⟩

instance : IsTrans FileEntry pathLe :=
  ⟨fun a b c => strLeB_trans a.path.toList b.path.toList c.path.toList⟩

/-- The short-source rejection branch of `_extract_clip` (lines 99–100). -/
theorem extractClip_too_short (c : Config) (src dst : String) (total : ℚ) (codec : String)
    (u : ℚ) (enc : EncodeResult) (h : total < 60) :
    extractClip c src dst total codec u enc =
      ⟨[Effect.probeDuration], false, false, none, none⟩ := by
  unfold extractClip
  rw [if_pos h]

/-- The insufficient-safe-range rejection branch of `_extract_clip`
(lines 102–104). -/
theorem extractClip_insufficient (c : Config) (src dst : String) (total : ℚ) (codec : String)
    (u : ℚ) (enc : EncodeResult) (h60 : ¬ total < 60)
    (hr : total * 0.5 - total * 0.1 < (c.clip_len : ℚ)) :
    extractClip c src dst total codec u enc =
      ⟨[Effect.probeDuration], false, false, none, none⟩ := by
  unfold extractClip
  rw [if_neg h60, if_pos hr]

/-- Once the source is accepted, `_extract_clip` proceeds to pipeline
choice and command assembly. -/
theorem extractClip_accept (c : Config) (src dst : String) (total : ℚ) (codec : String)
    (u : ℚ) (enc : EncodeResult) (h60 : ¬ total < 60)
    (hr : ¬ total * 0.5 - total * 0.1 < (c.clip_len : ℚ)) :
    extractClip c src dst total codec u enc =
      (if useHwaccel c.ffmpeg_pre codec then
        match shlexSplit c.ffmpeg_pre with
        | Except.error _ =>
            ⟨[Effect.probeDuration, Effect.mkdirDst, Effect.probeCodec],
              false, true, some Pipeline.hw, none⟩
        | Except.ok preToks =>
            encodeEffects
              (["ffmpeg", "-y"] ++ preToks
                ++ buildTail c src dst (renderChain (hwChain c.width c.height))
                    (clipStart total (c.clip_len : ℚ) u))
              enc Pipeline.hw
      else
        encodeEffects
          (["ffmpeg", "-y"]
            ++ buildTail c src dst (renderChain (swChain c.width c.height))
                (clipStart total (c.clip_len : ℚ) u))
          enc Pipeline.sw) := by
  unfold extractClip
  rw [if_neg h60, if_neg hr]

/-- `encodeEffects` always records the pipeline it was given. -/
theorem encodeEffects_pipeline (cmd : List String) (enc : EncodeResult) (pl : Pipeline) :
    (encodeEffects cmd enc pl).pipeline = some pl := by
  cases enc <;> rfl

/-- `useHwaccel` in propositional form (line 110). -/
theorem useHwaccel_iff (pre codec : String) :
    useHwaccel pre codec = true ↔ (pre ≠ "" ∧ codec ≠ "av1") := by
  simp [useHwaccel]

/-- The spec of Python's `max(..., key=size)` fold: the result bounds
every element and the accumulator, and is either the accumulator or the
first element strictly larger than everything before it. -/
theorem foldl_stepMax_spec : ∀ (l : List FileEntry) (a : FileEntry),
    (∀ g ∈ l, g.size ≤ (l.foldl stepMax a).size) ∧
    a.size ≤ (l.foldl stepMax a).size ∧
    (l.foldl stepMax a = a ∨
      ∃ p x q, l = p ++ x :: q ∧ l.foldl stepMax a = x ∧ a.size < x.size ∧
        ∀ g ∈ p, g.size < x.size)
  | [], a => ⟨by simp, le_refl _, Or.inl rfl⟩
  | y :: ys, a => by
      rw [List.foldl_cons]
      by_cases hy : a.size < y.size
      · have hstep : stepMax a y = y := by simp [stepMax, hy]
        rw [hstep]
        obtain ⟨ihall, ihle, ihcase⟩ := foldl_stepMax_spec ys y
        refine ⟨?_, le_trans (le_of_lt hy) ihle, ?_⟩
        · intro g hg
          rcases List.mem_cons.mp hg with rfl | hg'
          · exact ihle
          · exact ihall g hg'
        · rcases ihcase with heq | ⟨p, x, q, hps, hres, hlt, hpre⟩
          · exact Or.inr ⟨[], y, ys, rfl, heq, hy, by simp⟩
          · refine Or.inr ⟨y :: p, x, q, by simp [hps], hres, lt_trans hy hlt, ?_⟩
            intro g hg
            rcases List.mem_cons.mp hg with rfl | hg'
            · exact hlt
            · exact hpre g hg'
      · have hstep : stepMax a y = a := by simp [stepMax, hy]
        rw [hstep]
        obtain ⟨ihall, ihle, ihcase⟩ := foldl_stepMax_spec ys a
        have hya : y.size ≤ a.size := not_lt.mp hy
        refine ⟨?_, ihle, ?_⟩
        · intro g hg
          rcases List.mem_cons.mp hg with rfl | hg'
          · exact le_trans hya ihle
          · exact ihall g hg'
        · rcases ihcase with heq | ⟨p, x, q, hps, hres, hlt, hpre⟩
          · exact Or.inl heq
          · refine Or.inr ⟨y :: p, x, q, by simp [hps], hres, hlt, ?_⟩
            intro g hg
            rcases List.mem_cons.mp hg with rfl | hg'
            · exact lt_of_le_of_lt hya hlt
            · exact hpre g hg'

/-! ### Claim theorems -/

/-- C1: for every media folder where the backdrop artifact file or its
placeholder marker exists and the force flag is not set, `_process`
returns at once with an empty effect trace: no probe, no encode, and no
change to the artifact or the placeholder — the folder is skipped
(lines 186–191). -/
theorem c1_skip_guard (c : Config) (env : FolderEnv) (u : ℚ) (enc : EncodeResult)
    (hf : c.force = false)
    (he : env.artifactExists = true ∨ env.placeholderExists = true) :
    process c env u enc = ⟨[], false⟩ := by
  unfold process
  rcases he with h | h <;> simp [hf, h]

/-- Witness for C1: a folder with an existing artifact, default (no-force)
configuration. -/
def envC1 : FolderEnv :=
  ⟨"Show", true, false, some "Show/ep.mkv", 1200, "h264"⟩

theorem c1_skip_guard_witness :
    cfg0.force = false ∧ envC1.artifactExists = true ∧
    process cfg0 envC1 0 EncodeResult.success = ⟨[], false⟩ :=
  ⟨rfl, rfl, c1_skip_guard cfg0 envC1 0 EncodeResult.success rfl (Or.inl rfl)⟩

/-- C2: for duration `D` and clip length `L`: `D < 60` is rejected with
no encode attempt (effects stop at the duration probe); `D ≥ 60` with
`0.4·D < L` is likewise rejected ("insufficient safe range"); otherwise
the drawn start offset lies in `[0.1·D, 0.5·D − L]` for every unit draw
`u ∈ [0,1]`, so start plus clip length never exceeds `0.5·D`
(lines 98–106). -/
theorem c2_clip_planner (c : Config) (src dst codec : String) (total u : ℚ)
    (enc : EncodeResult) (hu0 : 0 ≤ u) (hu1 : u ≤ 1) :
    (total < 60 →
      extractClip c src dst total codec u enc =
        ⟨[Effect.probeDuration], false, false, none, none⟩) ∧
    (60 ≤ total → total * 0.4 < (c.clip_len : ℚ) →
      extractClip c src dst total codec u enc =
        ⟨[Effect.probeDuration], false, false, none, none⟩) ∧
    (60 ≤ total → (c.clip_len : ℚ) ≤ total * 0.4 →
      total * 0.1 ≤ clipStart total (c.clip_len : ℚ) u ∧
      clipStart total (c.clip_len : ℚ) u + (c.clip_len : ℚ) ≤ total * 0.5) := by
  refine ⟨?_, ?_, ?_⟩
  · intro h
    exact extractClip_too_short c src dst total codec u enc h
  · intro h60 hL
    exact extractClip_insufficient c src dst total codec u enc (not_lt.mpr h60) (by linarith)
  · intro h60 hL
    unfold clipStart uniform
    have hba : (0 : ℚ) ≤ (total * 0.5 - (c.clip_len : ℚ)) - total * 0.1 := by linarith
    constructor
    · linarith [mul_nonneg hba hu0]
    · linarith [mul_le_of_le_one_right hba hu1]

theorem c2_clip_planner_witness :
    (0 : ℚ) ≤ 1/2 ∧ (1/2 : ℚ) ≤ 1 ∧
    ((100 : ℚ) * 0.1 ≤ clipStart 100 (cfg0.clip_len : ℚ) (1/2) ∧
      clipStart 100 (cfg0.clip_len : ℚ) (1/2) + (cfg0.clip_len : ℚ) ≤ 100 * 0.5) :=
  ⟨by norm_num, by norm_num,
    (c2_clip_planner cfg0 "s" "d" "h264" 100 (1/2) EncodeResult.success (by norm_num)
      (by norm_num)).2.2 (by norm_num) (by norm_num [cfg0])⟩

/-- C3: once a source is accepted, the hardware pipeline is selected iff
the hardware pre-filter configuration string is non-empty and the probed
codec is not "av1"; in particular an av1 source with a non-empty
pre-filter string gets the software pipeline (lines 109–122). -/
theorem c3_pipeline_selection (c : Config) (src dst : String) (total : ℚ) (codec : String)
    (u : ℚ) (enc : EncodeResult) (h60 : ¬ total < 60)
    (hr : ¬ total * 0.5 - total * 0.1 < (c.clip_len : ℚ)) :
    ((extractClip c src dst total codec u enc).pipeline = some Pipeline.hw ↔
      (c.ffmpeg_pre ≠ "" ∧ codec ≠ "av1")) ∧
    (codec = "av1" → c.ffmpeg_pre ≠ "" →
      (extractClip c src dst total codec u enc).pipeline = some Pipeline.sw) := by
  rw [extractClip_accept c src dst total codec u enc h60 hr]
  constructor
  · by_cases hhw : useHwaccel c.ffmpeg_pre codec = true
    · rw [if_pos hhw]
      cases hs : shlexSplit c.ffmpeg_pre with
      | error e =>
          simp only [hs]
          simpa using (useHwaccel_iff _ _).mp hhw
      | ok toks =>
          simp only [hs, encodeEffects_pipeline]
          simpa using (useHwaccel_iff _ _).mp hhw
    · rw [if_neg hhw]
      have hnot : ¬ (c.ffmpeg_pre ≠ "" ∧ codec ≠ "av1") :=
        fun hc => hhw ((useHwaccel_iff _ _).mpr hc)
      simp [encodeEffects_pipeline, hnot]
  · intro hcod hpre
    have hsw : ¬ useHwaccel c.ffmpeg_pre codec = true := by simp [useHwaccel, hcod]
    rw [if_neg hsw]
    exact encodeEffects_pipeline _ _ _

/-- Witness configuration with a hardware pre-filter string. -/
def cfgPre : Config :=
  { cfg0 with ffmpeg_pre := "-hwaccel cuda" }

theorem c3_pipeline_selection_witness :
    ¬ (300 : ℚ) < 60 ∧ cfgPre.ffmpeg_pre ≠ "" ∧
    (extractClip cfgPre "s" "d" 300 "av1" 0 EncodeResult.success).pipeline = some Pipeline.sw :=
  ⟨by norm_num, by decide,
    (c3_pipeline_selection cfgPre "s" "d" 300 "av1" 0 EncodeResult.success (by norm_num)
      (by norm_num [cfgPre, cfg0])).2 rfl (by decide)⟩

/-- Folder for the C4 counterexample: past the state guard (no artifact,
no placeholder, no force), with a source whose probed duration is 30s —
the clip planner rejects it as too short. -/
def envC4 : FolderEnv :=
  ⟨"Movie", false, false, some "Movie/clip.mkv", 30, "h264"⟩

/-- C4 counterexample: a folder that proceeds past the state guard and
whose source the clip planner rejects (duration 30 < 60) ends with the
effect trace `[probeDuration]`: no encode is attempted, but — contrary to
the claim — no placeholder marker is written either (`_extract_clip`
returns `False` at line 100 without touching the placeholder, and
`_process` ignores the return value at line 199). -/
theorem c4_counterexample :
    (process cfg0 envC4 0 EncodeResult.success).effects = [Effect.probeDuration] ∧
    Effect.touchPlaceholder ∉ (process cfg0 envC4 0 EncodeResult.success).effects := by
  have h : process cfg0 envC4 0 EncodeResult.success = ⟨[Effect.probeDuration], false⟩ := by
    unfold process
    simp only [cfg0, envC4]
    rw [extractClip_too_short _ _ _ _ _ _ _ (by norm_num)]
    simp
  rw [h]
  exact ⟨rfl, by simp⟩

/-- C4 amended: for every folder past the state guard, if the candidate
selector yields no source a placeholder is written and no encode is
attempted; if the clip planner rejects the source (too short or
insufficient safe range) no encode is attempted, but no placeholder is
written — the folder is left unmarked for the next pass. -/
theorem c4_amended (c : Config) (env : FolderEnv) (u : ℚ) (enc : EncodeResult)
    (hguard : c.force = true ∨ (env.artifactExists = false ∧ env.placeholderExists = false)) :
    (env.src = none →
      Effect.touchPlaceholder ∈ (process c env u enc).effects ∧
      ∀ cmd, Effect.runEncode cmd ∉ (process c env u enc).effects) ∧
    (∀ s, env.src = some s →
      (env.duration < 60 ∨ env.duration * 0.5 - env.duration * 0.1 < (c.clip_len : ℚ)) →
      Effect.touchPlaceholder ∉ (process c env u enc).effects ∧
      ∀ cmd, Effect.runEncode cmd ∉ (process c env u enc).effects) := by
  have hcond : (!c.force && (env.artifactExists || env.placeholderExists)) = false := by
    rcases hguard with h | ⟨h1, h2⟩
    · simp [h]
    · simp [h1, h2]
  constructor
  · intro hsrc
    unfold process
    rw [hcond, hsrc]
    cases hf : c.force <;> simp
  · intro s hsrc hrej
    have hex : extractClip c s (env.folder ++ "/backdrops/backdrop.mp4")
        env.duration env.codec u enc =
        ⟨[Effect.probeDuration], false, false, none, none⟩ := by
      rcases hrej with h | h
      · exact extractClip_too_short _ _ _ _ _ _ _ h
      · by_cases h60 : env.duration < 60
        · exact extractClip_too_short _ _ _ _ _ _ _ h60
        · exact extractClip_insufficient _ _ _ _ _ _ _ h60 h
    unfold process
    rw [hcond, hsrc]
    simp only [hex]
    cases hf : c.force <;> simp

/-- Witness folder for the C4 amended claim: no video files at all. -/
def envC4w : FolderEnv :=
  ⟨"Empty", false, false, none, 0, ""⟩

theorem c4_amended_witness :
    envC4w.src = none ∧
    Effect.touchPlaceholder ∈ (process cfg0 envC4w 0 EncodeResult.success).effects ∧
    ∀ cmd, Effect.runEncode cmd ∉ (process cfg0 envC4w 0 EncodeResult.success).effects :=
  ⟨rfl,
    (c4_amended cfg0 envC4w 0 EncodeResult.success (Or.inr ⟨rfl, rfl⟩)).1 rfl |>.1,
    (c4_amended cfg0 envC4w 0 EncodeResult.success (Or.inr ⟨rfl, rfl⟩)).1 rfl |>.2⟩

/-- C9: when the codec probe fails, `_codec_name` returns `""`, and with
a non-empty hardware pre-filter string the planner still selects the
hardware pipeline — an unknown codec is treated like any non-av1 codec
(lines 83–94 and 109–110). -/
theorem c9_unknown_codec_hw (c : Config) (src dst : String) (total u : ℚ)
    (enc : EncodeResult) (h60 : ¬ total < 60)
    (hr : ¬ total * 0.5 - total * 0.1 < (c.clip_len : ℚ))
    (hpre : c.ffmpeg_pre ≠ "") :
    codecName (Except.error ()) = "" ∧
    (extractClip c src dst total (codecName (Except.error ())) u enc).pipeline
      = some Pipeline.hw := by
  refine ⟨rfl, ?_⟩
  rw [extractClip_accept c src dst total _ u enc h60 hr]
  have hhw : useHwaccel c.ffmpeg_pre (codecName (Except.error ())) = true := by
    rw [useHwaccel_iff]
    exact ⟨hpre, by decide⟩
  rw [if_pos hhw]
  cases hs : shlexSplit c.ffmpeg_pre with
  | error e => simp [hs]
  | ok toks => simp [hs, encodeEffects_pipeline]

theorem c9_unknown_codec_hw_witness :
    cfgPre.ffmpeg_pre ≠ "" ∧
    codecName (Except.error ()) = "" ∧
    (extractClip cfgPre "s" "d" 300 (codecName (Except.error ())) 0
      EncodeResult.success).pipeline = some Pipeline.hw :=
  ⟨by decide,
    (c9_unknown_codec_hw cfgPre "s" "d" 300 0 EncodeResult.success (by norm_num)
      (by norm_num [cfgPre, cfg0]) (by decide)).1,
    (c9_unknown_codec_hw cfgPre "s" "d" 300 0 EncodeResult.success (by norm_num)
      (by norm_num [cfgPre, cfg0]) (by decide)).2⟩

/-- C10: whenever the software pipeline is selected (empty pre-filter
string, or probed codec "av1"), the run is identical to a run with the
pre-input parameter string empty: `ffmpeg_pre` is omitted from the
invocation entirely and spliced in only on the hardware path
(lines 124–126). -/
theorem c10_pre_omitted (c : Config) (src dst : String) (total : ℚ) (codec : String)
    (u : ℚ) (enc : EncodeResult)
    (hsw : useHwaccel c.ffmpeg_pre codec = false) :
    extractClip c src dst total codec u enc =
      extractClip { c with ffmpeg_pre := "" } src dst total codec u enc := by
  have h2 : useHwaccel ({ c with ffmpeg_pre := "" }).ffmpeg_pre codec = false := by
    simp [useHwaccel]
  unfold extractClip
  rw [hsw, h2]
  rfl

theorem c10_pre_omitted_witness :
    useHwaccel cfgPre.ffmpeg_pre "av1" = false ∧
    extractClip cfgPre "s" "d" 300 "av1" 0 EncodeResult.success =
      extractClip { cfgPre with ffmpeg_pre := "" } "s" "d" 300 "av1" 0 EncodeResult.success :=
  ⟨by decide,
    c10_pre_omitted cfgPre "s" "d" 300 "av1" 0 EncodeResult.success (by decide)⟩

/-- C5 counterexample: the claim "both pipelines fit the source into the
target box preserving aspect ratio, then pad to the target" is false for
the hardware pipeline at target 1280×720: its single `scale_cuda`
filter maps a 720×720 source straight to 1280×720, changing the aspect
ratio, with no pad step. -/
theorem c5_counterexample :
    ¬ ∀ p : Pipeline, fitsPadsClaim (chainOfPipeline p 1280 720) 1280 720 := by
  intro hcl
  have h := hcl Pipeline.hw
  unfold fitsPadsClaim at h
  have h2 := h 720 720 (by norm_num) (by norm_num)
  have hfr : scaledFrame (chainOfPipeline Pipeline.hw 1280 720) ((720 : ℚ), (720 : ℚ))
      = (((1280 : Int) : ℚ), ((720 : Int) : ℚ)) := rfl
  rw [hfr] at h2
  obtain ⟨har, _⟩ := h2
  norm_num at har

/-- C5 amended: the software pipeline fits the source into the target box
preserving the aspect ratio (scaling at most to the box) and then pads to
exactly the target dimensions; the hardware pipeline instead scales
directly to the exact target dimensions, preserving neither aspect ratio
nor adding a pad step; under both pipelines the output dimensions equal
the configured target, so the output never exceeds it. -/
theorem c5_amended (w h : Int) (_hw : 0 < w) (_hh : 0 < h) :
    fitsPadsClaim (swChain w h) (w : ℚ) (h : ℚ) ∧
    (∀ iw ih : ℚ, chainDims (hwChain w h) (iw, ih) = ((w : ℚ), (h : ℚ))) ∧
    (∀ p : Pipeline, ∀ iw ih : ℚ, 0 < iw → 0 < ih →
      (chainDims (chainOfPipeline p w h) (iw, ih)).1 ≤ (w : ℚ) ∧
      (chainDims (chainOfPipeline p w h) (iw, ih)).2 ≤ (h : ℚ)) := by
  have key : ∀ iw ih : ℚ, 0 < iw → 0 < ih →
      (filterDims (VFilter.scaleFit w h) (iw, ih)).1 * ih
        = (filterDims (VFilter.scaleFit w h) (iw, ih)).2 * iw ∧
      (filterDims (VFilter.scaleFit w h) (iw, ih)).1 ≤ (w : ℚ) ∧
      (filterDims (VFilter.scaleFit w h) (iw, ih)).2 ≤ (h : ℚ) := by
    intro iw ih hiw hih
    by_cases hc : ih * (w : ℚ) ≤ iw * (h : ℚ)
    · have hfd : filterDims (VFilter.scaleFit w h) (iw, ih)
          = ((w : ℚ), (w : ℚ) * ih / iw) := by
        simp [filterDims, hc]
      rw [hfd]
      refine ⟨?_, le_refl _, ?_⟩
      · show (w : ℚ) * ih = (w : ℚ) * ih / iw * iw
        rw [div_mul_cancel₀ _ (ne_of_gt hiw)]
      · show (w : ℚ) * ih / iw ≤ (h : ℚ)
        rw [div_le_iff₀ hiw]
        nlinarith
    · have hfd : filterDims (VFilter.scaleFit w h) (iw, ih)
          = (iw * (h : ℚ) / ih, (h : ℚ)) := by
        simp [filterDims, hc]
      rw [hfd]
      refine ⟨?_, ?_, le_refl _⟩
      · show iw * (h : ℚ) / ih * ih = (h : ℚ) * iw
        rw [div_mul_cancel₀ _ (ne_of_gt hih)]
        ring
      · show iw * (h : ℚ) / ih ≤ (w : ℚ)
        rw [div_le_iff₀ hih]
        nlinarith [not_le.mp hc]
  have hsf : ∀ d : ℚ × ℚ, scaledFrame (swChain w h) d = filterDims (VFilter.scaleFit w h) d :=
    fun d => rfl
  have hch : ∀ d : ℚ × ℚ, chainDims (swChain w h) d
      = filterDims (VFilter.padCenter w h) (filterDims (VFilter.scaleFit w h) d) :=
    fun d => rfl
  have hswFits : fitsPadsClaim (swChain w h) (w : ℚ) (h : ℚ) := by
    intro iw ih hiw hih
    obtain ⟨har, h1, h2⟩ := key iw ih hiw hih
    rcases hfr : filterDims (VFilter.scaleFit w h) (iw, ih) with ⟨sw, sh⟩
    rw [hfr] at har h1 h2
    have hS : scaledFrame (swChain w h) (iw, ih) = (sw, sh) := (hsf (iw, ih)).trans hfr
    refine ⟨by rw [hS]; exact har, by rw [hS]; exact h1, by rw [hS]; exact h2, ?_⟩
    rw [hch (iw, ih), hfr]
    show (max (w : ℚ) sw, max (h : ℚ) sh) = ((w : ℚ), (h : ℚ))
    rw [max_eq_left h1, max_eq_left h2]
  have hhwDims : ∀ iw ih : ℚ, chainDims (hwChain w h) (iw, ih) = ((w : ℚ), (h : ℚ)) :=
    fun iw ih => rfl
  refine ⟨hswFits, hhwDims, ?_⟩
  intro p iw ih hiw hih
  cases p
  · rw [show chainOfPipeline Pipeline.hw w h = hwChain w h from rfl, hhwDims iw ih]
    exact ⟨le_refl _, le_refl _⟩
  · have hdims := (hswFits iw ih hiw hih).2.2.2
    rw [show chainOfPipeline Pipeline.sw w h = swChain w h from rfl, hdims]
    exact ⟨le_refl _, le_refl _⟩

theorem c5_amended_witness :
    (0 : Int) < 1280 ∧ (0 : Int) < 720 ∧
    (∀ iw ih : ℚ, chainDims (hwChain 1280 720) (iw, ih) = ((1280 : ℚ), (720 : ℚ))) :=
  ⟨by norm_num, by norm_num, by
    have h := (c5_amended 1280 720 (by norm_num) (by norm_num)).2.1
    intro iw ih
    rw [h iw ih]
    norm_num⟩

/-- Directory listing (in enumeration order) for the C6 counterexample:
the OS returned `Season 03` before `Season 02`. -/
def dirsC6 : List String := ["Season 03", "Season 02"]

/-- C6 counterexample: with season folders enumerated as
`["Season 03", "Season 02"]` (Python's `Path.iterdir` yields entries in
arbitrary, not sorted, order) and none matching "01"/"season 1", the
code's fallback `seasons[0]` (line 171) picks `Season 03`, the first in
enumeration order, not `Season 02`, the first in sorted order. -/
theorem c6_counterexample : ¬ sortedSeasonClaim dirsC6 := by
  intro hcl
  unfold sortedSeasonClaim at hcl
  exact absurd (hcl (by decide) (by decide)) (by decide)

/-- C6 amended: when season-like subdirectories exist but none contains
"01" or "season 1" (case-insensitive), the selector falls back to the
first season-like subdirectory in directory enumeration order — which
coincides with sorted order only when the OS enumeration happens to be
sorted. -/
theorem c6_amended (dirs : List String) (hne : seasonDirs dirs ≠ [])
    (hnone : (seasonDirs dirs).find? seasonOneMatch = none) :
    selectSeason dirs = (seasonDirs dirs).head? ∧ (seasonDirs dirs).head? ≠ none := by
  constructor
  · unfold selectSeason
    rw [hnone]
  · cases hsd : seasonDirs dirs with
    | nil => exact absurd hsd hne
    | cons a l => simp

theorem c6_amended_witness :
    seasonDirs dirsC6 ≠ [] ∧
    (seasonDirs dirsC6).find? seasonOneMatch = none ∧
    selectSeason dirsC6 = (seasonDirs dirsC6).head? :=
  ⟨by decide, by decide, (c6_amended dirsC6 (by decide) (by decide)).1⟩

/-- C7: the movie selector filters the enumerated files to video
extensions and sorts them by path; it returns `none` when no video file
exists, and otherwise the video with the largest size, ties broken by
the first position in the sorted order (every stricty earlier entry is
strictly smaller) (lines 164–166 and 193–195). -/
theorem c7_movie_selector (files : List FileEntry) :
    (findVideos files = [] → selectMovieSource files = none) ∧
    (findVideos files).Sorted pathLe ∧
    (∀ m, selectMovieSource files = some m →
      (∀ g ∈ findVideos files, g.size ≤ m.size) ∧
      ∃ p q, findVideos files = p ++ m :: q ∧ ∀ g ∈ p, g.size < m.size) := by
  refine ⟨?_, List.sorted_insertionSort pathLe _, ?_⟩
  · intro hemp
    unfold selectMovieSource
    rw [hemp]
    rfl
  · intro m hm
    unfold selectMovieSource at hm
    cases hfv : findVideos files with
    | nil =>
        rw [hfv] at hm
        exact absurd hm (by simp [maxBySize])
    | cons v vs =>
        rw [hfv] at hm
        have hm' : vs.foldl stepMax v = m := Option.some.inj hm
        obtain ⟨hall, hle, hcase⟩ := foldl_stepMax_spec vs v
        rw [hm'] at hall hle hcase
        constructor
        · intro g hg
          rcases List.mem_cons.mp hg with rfl | hg'
          · exact hle
          · exact hall g hg'
        · rcases hcase with heq | ⟨p, x, q, hps, hres, hlt, hpre⟩
          · exact ⟨[], vs, by simp [heq], by simp⟩
          · refine ⟨v :: p, q, ?_, ?_⟩
            · rw [hps, hres]
              simp
            · intro g hg
              rcases List.mem_cons.mp hg with rfl | hg'
              · rw [hres]
                exact hlt
              · rw [hres]
                exact hpre g hg'

/-- File listing for the C7 witness: two videos (the larger later in
sort order) and one non-video file. -/
def filesC7 : List FileEntry :=
  [⟨"Movie/b.mkv", 3400⟩, ⟨"Movie/a.mkv", 1200⟩, ⟨"Movie/cover.jpg", 9999⟩]

theorem c7_movie_selector_witness :
    selectMovieSource filesC7 = some ⟨"Movie/b.mkv", 3400⟩ ∧
    (∀ g ∈ findVideos filesC7, g.size ≤ 3400) ∧
    ∃ p q, findVideos filesC7 = p ++ (⟨"Movie/b.mkv", 3400⟩ : FileEntry) :: q ∧
      ∀ g ∈ p, g.size < 3400 :=
  ⟨rfl,
    ((c7_movie_selector filesC7).2.2 ⟨"Movie/b.mkv", 3400⟩ rfl).1,
    ((c7_movie_selector filesC7).2.2 ⟨"Movie/b.mkv", 3400⟩ rfl).2⟩

/-- `shlex.split` of the empty string succeeds with no tokens. -/
theorem shlexSplit_empty : shlexSplit "" = Except.ok [] := rfl

/-- When `ffmpeg_extra` fails to tokenize, the assembled tail is the one
of a configuration with no extra parameters at all (lines 142–146). -/
theorem buildTail_bad_extra (c : Config) (src dst vf : String) (start : ℚ) (e : String)
    (hx : shlexSplit c.ffmpeg_extra = Except.error e) :
    buildTail c src dst vf start = buildTail { c with ffmpeg_extra := "" } src dst vf start := by
  have hne : (c.ffmpeg_extra == "") = false := by
    cases hbe : c.ffmpeg_extra == ""
    · rfl
    · exfalso
      have heqs : c.ffmpeg_extra = "" := eq_of_beq hbe
      rw [heqs, shlexSplit_empty] at hx
      exact Except.noConfusion hx
  unfold buildTail
  rw [hne, hx]
  simp

/-- Configuration with a malformed (unbalanced-quote) pre-input string. -/
def cfg8 : Config := { cfg0 with ffmpeg_pre := "\x27" }

/-- Folder for the C8 counterexample: past the guard, 300s h264 source. -/
def env8 : FolderEnv := ⟨"Movie", false, false, some "Movie/a.mkv", 300, "h264"⟩

/-- C8 counterexample: a malformed pre-input parameter string (a lone
single quote) is NOT merely warned about and omitted: on the hardware
path the un-guarded `shlex.split(self.ffmpeg_pre)` (line 126) raises
`ValueError`, aborting the folder's processing — no encode is run and no
placeholder is written (the exception escapes `_process` and is caught
by the per-folder handler in `run_once`). -/
theorem c8_counterexample :
    (∃ e, shlexSplit cfg8.ffmpeg_pre = Except.error e) ∧
    (process cfg8 env8 0 EncodeResult.success).raised = true ∧
    Effect.touchPlaceholder ∉ (process cfg8 env8 0 EncodeResult.success).effects ∧
    ∀ cmd, Effect.runEncode cmd ∉ (process cfg8 env8 0 EncodeResult.success).effects := by
  have hex : extractClip cfg8 "Movie/a.mkv" (String.append "Movie" "/backdrops/backdrop.mp4")
      300 "h264" 0 EncodeResult.success =
      ⟨[Effect.probeDuration, Effect.mkdirDst, Effect.probeCodec],
        false, true, some Pipeline.hw, none⟩ := by
    rw [extractClip_accept _ _ _ _ _ _ _ (by norm_num) (by norm_num [cfg8, cfg0])]
    rfl
  have hp : process cfg8 env8 0 EncodeResult.success =
      ⟨[Effect.probeDuration, Effect.mkdirDst, Effect.probeCodec], true⟩ := by
    unfold process
    have hguard : (!cfg8.force && (env8.artifactExists || env8.placeholderExists)) = false := rfl
    rw [hguard]
    show (⟨(if cfg8.force then [Effect.unlinkArtifact, Effect.unlinkPlaceholder] else [])
        ++ (extractClip cfg8 "Movie/a.mkv" (env8.folder ++ "/backdrops/backdrop.mp4")
            env8.duration env8.codec 0 EncodeResult.success).effects,
        (extractClip cfg8 "Movie/a.mkv" (env8.folder ++ "/backdrops/backdrop.mp4")
            env8.duration env8.codec 0 EncodeResult.success).raised⟩ : ProcessResult) = _
    rw [show (env8.folder ++ "/backdrops/backdrop.mp4")
        = String.append "Movie" "/backdrops/backdrop.mp4" from rfl,
      show env8.duration = (300 : ℚ) from rfl, show env8.codec = "h264" from rfl, hex]
    rfl
  refine ⟨⟨"No closing quotation", rfl⟩, by rw [hp], by rw [hp]; simp, ?_⟩
  intro cmd
  rw [hp]
  simp

/-- C8 amended: a malformed post-output parameter string (`ffmpeg_extra`)
is handled: the run proceeds exactly as if no extra parameters were
configured (warning plus omission, never fatal). A malformed pre-input
string (`ffmpeg_pre`), however, raises on the hardware path: once the
source is accepted and the hardware pipeline chosen, `_extract_clip`
ends with an escaped exception, no encode and no placeholder. -/
theorem c8_amended (c : Config) (src dst : String) (total : ℚ) (codec : String)
    (u : ℚ) (enc : EncodeResult)
    (hx : ∃ e, shlexSplit c.ffmpeg_extra = Except.error e) :
    extractClip c src dst total codec u enc =
      extractClip { c with ffmpeg_extra := "" } src dst total codec u enc ∧
    ((∃ e2, shlexSplit c.ffmpeg_pre = Except.error e2) →
      useHwaccel c.ffmpeg_pre codec = true →
      ¬ total < 60 → ¬ total * 0.5 - total * 0.1 < (c.clip_len : ℚ) →
      (extractClip c src dst total codec u enc).raised = true ∧
      ∀ cmd, Effect.runEncode cmd ∉ (extractClip c src dst total codec u enc).effects) := by
  obtain ⟨e, he⟩ := hx
  constructor
  · unfold extractClip
    by_cases h1 : total < 60
    · simp only [if_pos h1]
    · simp only [if_neg h1]
      by_cases h2 : total * 0.5 - total * 0.1 < (c.clip_len : ℚ)
      · simp only [if_pos h2]
      · simp only [if_neg h2]
        by_cases hhw : useHwaccel c.ffmpeg_pre codec = true
        · simp only [if_pos hhw]
          cases hs : shlexSplit c.ffmpeg_pre with
          | error e2 => rfl
          | ok toks =>
              rw [buildTail_bad_extra c src dst _ _ e he]
              rfl
        · simp only [if_neg hhw]
          rw [buildTail_bad_extra c src dst _ _ e he]
          rfl
  · intro hp hhw h60 hr
    obtain ⟨e2, he2⟩ := hp
    have hres : extractClip c src dst total codec u enc =
        ⟨[Effect.probeDuration, Effect.mkdirDst, Effect.probeCodec],
          false, true, some Pipeline.hw, none⟩ := by
      rw [extractClip_accept c src dst total codec u enc h60 hr, if_pos hhw, he2]
    rw [hres]
    exact ⟨rfl, by intro cmd; simp⟩

/-- Configuration with a malformed post-output parameter string. -/
def cfg8w : Config := { cfg0 with ffmpeg_extra := "\x27" }

theorem c8_amended_witness :
    (∃ e, shlexSplit cfg8w.ffmpeg_extra = Except.error e) ∧
    extractClip cfg8w "s" "d" 300 "h264" 0 EncodeResult.success =
      extractClip { cfg8w with ffmpeg_extra := "" } "s" "d" 300 "h264" 0
        EncodeResult.success :=
  ⟨⟨"No closing quotation", rfl⟩,
    (c8_amended cfg8w "s" "d" 300 "h264" 0 EncodeResult.success
      ⟨"No closing quotation", rfl⟩).1⟩

/-! ### Embedding sanity checks

Concrete evaluations tying the embedding to the source: the suffix
filter, the tokenizer, the exact filter-chain strings of lines 112–122,
the rejection traces, the selectors and the codec-probe post-processing.
-/

example : pathSuffix "Movie/clip.mkv" = ".mkv" := rfl

example : toLowerStr (pathSuffix "A/B.MKV") = ".mkv" := rfl

example : shlexSplit "\x27" = Except.error "No closing quotation" := rfl

example : shlexSplit "-hwaccel cuda" = Except.ok ["-hwaccel", "cuda"] := rfl

example : renderChain (swChain 1280 720) =
    "format=yuv420p,scale=1280:720:force_original_aspect_ratio=decrease,pad=1280:720:(ow-iw)/2:(oh-ih)/2" := rfl

example : renderChain (hwChain 1280 720) =
    "scale_cuda=1280:720:interp_algo=lanczos:format=nv12" := rfl

example : (extractClip cfg0 "s" "d" 30 "h264" 0 EncodeResult.success).effects
    = [Effect.probeDuration] := rfl

example :
    (process cfg0 ⟨"M", false, false, some "M/a.mkv", 30, "h264"⟩ 0 EncodeResult.success).effects
    = [Effect.probeDuration] := rfl

example : selectMovieSource [⟨"B.mkv", 3400⟩, ⟨"A.mkv", 1200⟩] = some ⟨"B.mkv", 3400⟩ := rfl

example : selectSeason ["Season 03", "Season 02"] = some "Season 03" := rfl

example : (List.insertionSort strLe (seasonDirs ["Season 03", "Season 02"])).head?
    = some "Season 02" := rfl

example : codecName (Except.ok "codec_name=AV1\n") = "av1" := rfl

example :
    (extractClip { cfg0 with ffmpeg_pre := "\x27" } "s" "d" 300 "h264" 0
      EncodeResult.success).raised = true := by
  rw [extractClip_accept _ _ _ _ _ _ _ (by norm_num) (by norm_num [cfg0])]
  rfl

end MediaBackdrop
